import Mathlib

/-!
Verification of the fetch-and-cache access layer of `src/tools/api.py` and
`src/data/cache.py` (repository `hedge-zr`).

The Python source is shallowly embedded as pure Lean functions:

* the process-wide `cachebox.Cache` becomes an association list passed in and
  returned explicitly;
* the network (`requests.get` / `requests.post`) becomes an explicit
  `fetch : String → HttpResponse _` argument mapping the request URL (and, for
  the POST endpoint, the JSON body) to the provider's response;
* the Pydantic response models (`src/data/models.py` is not part of the
  sources; the spec treats it as an external black-box decoder) are modelled
  by an `Option` field on the response: `none` means the payload does not
  match the expected record schema and the constructor call raises;
* Python exceptions become the `Except ApiError` outcome of a single attempt
  of the function body; the `tenacity` retry decorator is modelled separately
  (see `retry_wrapped`, `wait_random_exponential`);
* Python string comparison (`<=` on `str`, used by the pagination cursor) is
  code-point lexicographic order, embedded as `pyStrLe` on `String.data`.

Every operation returns a `RunResult`: the outcome of one attempt, the cache
after the attempt, and the number of network requests the attempt issued.
-/

/-- Code-point comparison of characters, as Python compares `str` symbols. -/
def charLeNat (a b : Char) : Bool := a.toNat ≤ b.toNat

/-- Lexicographic order on character lists by code point (Python string order). -/
def listCharLe : List Char → List Char → Bool
  | [], _ => true
  | _ :: _, [] => false
  | a :: as, b :: bs =>
    if a.toNat < b.toNat then true
    else if b.toNat < a.toNat then false
    else listCharLe as bs

/-- Python `a <= b` on strings. -/
def pyStrLe (a b : String) : Bool := listCharLe a.data b.data

/-- Python `min(a, b)` on strings (keeps the left value on ties). -/
def pyStrMin (a b : String) : String := if pyStrLe a b then a else b

/-- Characters before the first `T`. -/
def takeUntilT : List Char → List Char
  | [] => []
  | c :: cs => if c = 'T' then [] else c :: takeUntilT cs

/-- Python `s.split("T")[0]`: the part of the string before the first `T`. -/
def dateOnly (s : String) : String := ⟨takeUntilT s.data⟩

/-- Python truthiness of an optional string: `None` and `""` are falsy. -/
def strTruthy : Option String → Bool
  | none => false
  | some s => s ≠ ""

/-- Python `start_date or 'none'` (line 195 / 256 of `api.py`). -/
def strOrNone : Option String → String
  | none => "none"
  | some s => if s = "" then "none" else s

/-- Price record. `open` is a Lean keyword, hence the field `open_`. -/
structure Price where
  time : String
  open_ : Int
  close : Int
  high : Int
  low : Int
  volume : Int
deriving DecidableEq

structure FinancialMetrics where
  report_period : String
  period : String
  market_cap : Option Int
deriving DecidableEq

structure LineItems where
  report_period : String
  name : String
  value : Int
deriving DecidableEq

structure InsiderTrade where
  filing_date : String
  transaction_shares : Int
deriving DecidableEq

structure CompanyNews where
  date : String
  title : String
deriving DecidableEq

/-- Modelled from the spec: `src/data/models.py` is external to the sources.
`Price(**price)` applied on a cache hit to a previously stored record
reconstructs a record with the same fields (the decoder is assumed correct
on well-formed data). -/
def Price.reconstruct (p : Price) : Price :=
  ⟨p.time, p.open_, p.close, p.high, p.low, p.volume⟩

/-- Modelled from the spec: record reconstruction on a cache hit. -/
def FinancialMetrics.reconstruct (m : FinancialMetrics) : FinancialMetrics :=
  ⟨m.report_period, m.period, m.market_cap⟩

/-- Modelled from the spec: record reconstruction on a cache hit. -/
def LineItems.reconstruct (l : LineItems) : LineItems :=
  ⟨l.report_period, l.name, l.value⟩

/-- Modelled from the spec: record reconstruction on a cache hit. -/
def InsiderTrade.reconstruct (t : InsiderTrade) : InsiderTrade :=
  ⟨t.filing_date, t.transaction_shares⟩

/-- Modelled from the spec: record reconstruction on a cache hit. -/
def CompanyNews.reconstruct (n : CompanyNews) : CompanyNews :=
  ⟨n.date, n.title⟩

/-- A value stored in the process-wide cache: one batch of one record family. -/
inductive CacheValue where
  | prices (ps : List Price)
  | metrics (ms : List FinancialMetrics)
  | lineItems (ls : List LineItems)
  | insiderTrades (ts : List InsiderTrade)
  | companyNews (ns : List CompanyNews)
deriving DecidableEq

/-- The cache store: key to last written batch, newest binding first. -/
abbrev Cache := List (String × CacheValue)

/-- `key in _cache` / `_cache[key]`: the most recent binding for the key. -/
def Cache.lookup (c : Cache) (k : String) : Option CacheValue :=
  match c.find? (fun p => p.1 = k) with
  | some p => some p.2
  | none => none

/-- `_cache.insert(key, value)` (last write wins). -/
def Cache.insertKV (c : Cache) (k : String) (v : CacheValue) : Cache := (k, v) :: c

/-- A provider response, as the access layer observes it: the HTTP status and
the result of decoding the body into the expected record list (`none` when the
payload does not match the schema, so the Pydantic constructor raises). -/
structure HttpResponse (R : Type) where
  status : Nat
  decoded : Option R
deriving DecidableEq

/-- Python exceptions the embedded attempts can raise. -/
inductive ApiError where
  /-- the response payload did not match the expected record schema -/
  | decodeError
  /-- list index out of range (`financial_metrics[0]` on an empty list) -/
  | indexError
  /-- a record object used where a mapping or sequence is required -/
  | typeError
  /-- a missing column label on a frame (`df["time"]` when the frame built
  from an empty record list has no columns) -/
  | keyError
deriving DecidableEq

instance {ε α : Type} [DecidableEq ε] [DecidableEq α] : DecidableEq (Except ε α)
  | .ok a, .ok b =>
    if h : a = b then isTrue (by rw [h]) else isFalse (by simp [h])
  | .ok _, .error _ => isFalse (by simp)
  | .error _, .ok _ => isFalse (by simp)
  | .error e, .error f =>
    if h : e = f then isTrue (by rw [h]) else isFalse (by simp [h])

/-- Result of one attempt of a façade operation: outcome, cache afterwards,
and how many network requests this attempt issued. -/
structure RunResult (R : Type) where
  outcome : Except ApiError R
  cache : Cache
  fetches : Nat
deriving DecidableEq

def prices_cache_key (ticker start_date end_date : String) : String :=
  ticker ++ "_prices_" ++ start_date ++ "_" ++ end_date

def metrics_cache_key (ticker period end_date : String) (limit : Nat) : String :=
  ticker ++ "_metrics_" ++ period ++ "_" ++ end_date ++ "_" ++ toString limit

def line_items_cache_key (ticker period end_date : String) : String :=
  ticker ++ "_line-items_" ++ period ++ "_" ++ end_date

def insider_trades_cache_key (ticker : String) (start_date : Option String)
    (end_date : String) (limit : Nat) : String :=
  ticker ++ "_insider-trades_" ++ strOrNone start_date ++ "_" ++ end_date ++ "_"
    ++ toString limit

def company_news_cache_key (ticker : String) (start_date : Option String)
    (end_date : String) (limit : Nat) : String :=
  ticker ++ "_company-news_" ++ strOrNone start_date ++ "_" ++ end_date ++ "_"
    ++ toString limit

/-- Key used by `get_market_cap` (line 315): the metrics key with period `ttm`
and the literal `10`, although the fetch below it requests `limit=1`. -/
def market_cap_cache_key (ticker end_date : String) : String :=
  ticker ++ "_metrics_ttm_" ++ end_date ++ "_10"

def prices_url (ticker start_date end_date : String) : String :=
  "https://api.financialdatasets.ai/prices/?ticker=" ++ ticker
    ++ "&interval=day&interval_multiplier=1&start_date=" ++ start_date
    ++ "&end_date=" ++ end_date

def metrics_url (ticker end_date period : String) (limit : Nat) : String :=
  "https://api.financialdatasets.ai/financial-metrics/?ticker=" ++ ticker
    ++ "&report_period_lte=" ++ end_date ++ "&limit=" ++ toString limit
    ++ "&period=" ++ period

def line_items_url : String :=
  "https://api.financialdatasets.ai/financials/search/line-items"

def insider_trades_url (ticker current_end_date : String)
    (start_date : Option String) (limit : Nat) : String :=
  let base := "https://api.financialdatasets.ai/insider-trades/?ticker=" ++ ticker
    ++ "&filing_date_lte=" ++ current_end_date
  let base := if strTruthy start_date
    then base ++ "&filing_date_gte=" ++ (start_date.getD "") else base
  base ++ "&limit=" ++ toString limit

def company_news_url (ticker current_end_date : String)
    (start_date : Option String) (limit : Nat) : String :=
  let base := "https://api.financialdatasets.ai/news/?ticker=" ++ ticker
    ++ "&end_date=" ++ current_end_date
  let base := if strTruthy start_date
    then base ++ "&start_date=" ++ (start_date.getD "") else base
  base ++ "&limit=" ++ toString limit

/-- URL of the single metrics fetch inside `get_market_cap` (line 325):
`limit` and `period` are hard-coded to `1` and `ttm`. -/
def market_cap_url (ticker end_date : String) : String :=
  "https://api.financialdatasets.ai/financial-metrics/?ticker=" ++ ticker
    ++ "&report_period_lte=" ++ end_date ++ "&limit=1&period=ttm"

def get_prices (fetch : String → HttpResponse (List Price)) (cache : Cache)
    (ticker start_date end_date : String) : RunResult (List Price) :=
  let cache_key := prices_cache_key ticker start_date end_date
  match cache.lookup cache_key with
  | some (.prices ps) => ⟨.ok (ps.map Price.reconstruct), cache, 0⟩
  | some _ => ⟨.error .typeError, cache, 0⟩
  | none =>
    let response := fetch (prices_url ticker start_date end_date)
    -- a non-200 status only prints a diagnostic (no control-flow effect)
    if response.status = 404 then ⟨.ok [], cache, 1⟩
    else
      match response.decoded with
      | none => ⟨.error .decodeError, cache, 1⟩
      | some prices =>
        if prices.isEmpty then ⟨.ok [], cache, 1⟩
        else ⟨.ok prices, cache.insertKV cache_key (.prices prices), 1⟩

def get_financial_metrics (fetch : String → HttpResponse (List FinancialMetrics))
    (cache : Cache) (ticker end_date period : String) (limit : Nat) :
    RunResult (List FinancialMetrics) :=
  let cache_key := metrics_cache_key ticker period end_date limit
  match cache.lookup cache_key with
  | some (.metrics ms) => ⟨.ok (ms.map FinancialMetrics.reconstruct), cache, 0⟩
  | some _ => ⟨.error .typeError, cache, 0⟩
  | none =>
    let response := fetch (metrics_url ticker end_date period limit)
    -- a non-200 status only prints; the body is decoded regardless
    match response.decoded with
    | none => ⟨.error .decodeError, cache, 1⟩
    | some financial_metrics =>
      -- the source also appends each metric to a local `cache.txt` file
      -- (lines 93-95); that file is not the cache store and has no effect here
      if financial_metrics.isEmpty then ⟨.ok [], cache, 1⟩
      else ⟨.ok financial_metrics,
        cache.insertKV cache_key (.metrics financial_metrics), 1⟩

/-- The hard-coded list of line items (api.py lines 131-162). -/
def hard_coded_line_items : List String :=
  ["book_value_per_share", "capital_expenditure", "cash_and_equivalents",
   "current_assets", "current_liabilities", "debt_to_equity",
   "depreciation_and_amortization", "dividends_and_other_cash_distributions",
   "earnings_per_share", "ebit", "ebitda", "free_cash_flow",
   "goodwill_and_intangible_assets", "gross_margin", "gross_profit",
   "interest_expense", "issuance_or_purchase_of_equity_shares", "net_income",
   "operating_expense", "operating_income", "operating_margin",
   "outstanding_shares", "research_and_development",
   "return_on_invested_capital", "revenue", "shareholders_equity",
   "total_assets", "total_debt", "total_liabilities", "working_capital"]

/-- JSON body of the POST request (api.py lines 164-170). -/
structure LineItemsBody where
  tickers : List String
  line_items : List String
  end_date : String
  period : String
  limit : Nat
deriving DecidableEq

/-- The body `search_line_items` actually sends: `line_items` is always the
hard-coded list, whatever `line_items_list` the caller passed. -/
def line_items_body (ticker end_date period : String) (limit : Nat) :
    LineItemsBody :=
  ⟨[ticker], hard_coded_line_items, end_date, period, limit⟩

def search_line_items
    (fetchPost : String → LineItemsBody → HttpResponse (List LineItems))
    (cache : Cache) (ticker : String) (line_items_list : List String)
    (end_date period : String) (limit : Nat) : RunResult (List LineItems) :=
  let cache_key := line_items_cache_key ticker period end_date
  match cache.lookup cache_key with
  | some (.lineItems ls) => ⟨.ok (ls.map LineItems.reconstruct), cache, 0⟩
  | some _ => ⟨.error .typeError, cache, 0⟩
  | none =>
    -- `line_items_list` is shadowed by the hard-coded list and never used
    let _unused := line_items_list
    let body := line_items_body ticker end_date period limit
    let response := fetchPost line_items_url body
    -- no 404 branch, no emptiness check: any decoded result is cached
    match response.decoded with
    | none => ⟨.error .decodeError, cache, 1⟩
    | some search_results =>
      ⟨.ok search_results,
        cache.insertKV cache_key (.lineItems search_results), 1⟩

/-- `min(trade.filing_date for trade in insider_trades)` on a nonempty batch. -/
def min_filing_date (ts : List InsiderTrade) : String :=
  match ts with
  | [] => ""
  | t :: rest => rest.foldl (fun acc u => pyStrMin acc u.filing_date) t.filing_date

/-- `min(news.date for news in company_news)` on a nonempty batch. -/
def min_news_date (ns : List CompanyNews) : String :=
  match ns with
  | [] => ""
  | n :: rest => rest.foldl (fun acc u => pyStrMin acc u.date) n.date

/-- The `while True` pagination loop of `get_insider_trades`, with explicit
fuel; `none` means the loop did not exit within `fuel` iterations. Returns
the outcome (`all_trades` or a raised decode error) and the number of
requests issued. -/
def insider_trades_loop (fetch : String → HttpResponse (List InsiderTrade))
    (ticker : String) (start_date : Option String) (limit : Nat) :
    Nat → String → List InsiderTrade → Nat →
    Option (Except ApiError (List InsiderTrade) × Nat)
  | 0, _, _, _ => none
  | fuel + 1, current_end_date, all_trades, fetches =>
    let response := fetch (insider_trades_url ticker current_end_date start_date limit)
    match response.decoded with
    | none => some (.error .decodeError, fetches + 1)
    | some insider_trades =>
      if insider_trades.isEmpty then some (.ok all_trades, fetches + 1)
      else
        let all_trades := all_trades ++ insider_trades
        -- `if not start_date or len(insider_trades) < limit: break`
        if !strTruthy start_date || insider_trades.length < limit then
          some (.ok all_trades, fetches + 1)
        else
          let current_end_date := dateOnly (min_filing_date insider_trades)
          -- `if current_end_date <= start_date: break`
          if pyStrLe current_end_date (start_date.getD "") then
            some (.ok all_trades, fetches + 1)
          else
            insider_trades_loop fetch ticker start_date limit fuel
              current_end_date all_trades (fetches + 1)

def get_insider_trades (fetch : String → HttpResponse (List InsiderTrade))
    (cache : Cache) (ticker end_date : String) (start_date : Option String)
    (limit : Nat) (fuel : Nat) : Option (RunResult (List InsiderTrade)) :=
  let cache_key := insider_trades_cache_key ticker start_date end_date limit
  match cache.lookup cache_key with
  | some (.insiderTrades ts) =>
    some ⟨.ok (ts.map InsiderTrade.reconstruct), cache, 0⟩
  | some _ => some ⟨.error .typeError, cache, 0⟩
  | none =>
    match insider_trades_loop fetch ticker start_date limit fuel end_date [] 0 with
    | none => none
    | some (.error e, n) => some ⟨.error e, cache, n⟩
    | some (.ok all_trades, n) =>
      if all_trades.isEmpty then some ⟨.ok [], cache, n⟩
      else some ⟨.ok all_trades,
        cache.insertKV cache_key (.insiderTrades all_trades), n⟩

/-- The `while True` pagination loop of `get_company_news` (same shape as the
insider-trades loop, over the `date` field). -/
def company_news_loop (fetch : String → HttpResponse (List CompanyNews))
    (ticker : String) (start_date : Option String) (limit : Nat) :
    Nat → String → List CompanyNews → Nat →
    Option (Except ApiError (List CompanyNews) × Nat)
  | 0, _, _, _ => none
  | fuel + 1, current_end_date, all_news, fetches =>
    let response := fetch (company_news_url ticker current_end_date start_date limit)
    match response.decoded with
    | none => some (.error .decodeError, fetches + 1)
    | some company_news =>
      if company_news.isEmpty then some (.ok all_news, fetches + 1)
      else
        let all_news := all_news ++ company_news
        if !strTruthy start_date || company_news.length < limit then
          some (.ok all_news, fetches + 1)
        else
          let current_end_date := dateOnly (min_news_date company_news)
          if pyStrLe current_end_date (start_date.getD "") then
            some (.ok all_news, fetches + 1)
          else
            company_news_loop fetch ticker start_date limit fuel
              current_end_date all_news (fetches + 1)

def get_company_news (fetch : String → HttpResponse (List CompanyNews))
    (cache : Cache) (ticker end_date : String) (start_date : Option String)
    (limit : Nat) (fuel : Nat) : Option (RunResult (List CompanyNews)) :=
  let cache_key := company_news_cache_key ticker start_date end_date limit
  match cache.lookup cache_key with
  | some (.companyNews ns) =>
    some ⟨.ok (ns.map CompanyNews.reconstruct), cache, 0⟩
  | some _ => some ⟨.error .typeError, cache, 0⟩
  | none =>
    match company_news_loop fetch ticker start_date limit fuel end_date [] 0 with
    | none => none
    | some (.error e, n) => some ⟨.error e, cache, n⟩
    | some (.ok all_news, n) =>
      if all_news.isEmpty then some ⟨.ok [], cache, n⟩
      else some ⟨.ok all_news,
        cache.insertKV cache_key (.companyNews all_news), n⟩

/-- A Python value `get_market_cap` can return: its annotation says
`float | None`, but line 336 returns the empty list `[]`. -/
inductive PyValue where
  | float (x : Int)
  | pyNone
  | emptyList
deriving DecidableEq

/-- Python truthiness of the optional `market_cap` field: `None` and `0` are
falsy (`if not market_cap`). -/
def marketCapFalsy : Option Int → Bool
  | none => true
  | some v => v = 0

def get_market_cap (fetch : String → HttpResponse (List FinancialMetrics))
    (cache : Cache) (ticker end_date : String) : RunResult PyValue :=
  let cache_key := market_cap_cache_key ticker end_date
  match cache.lookup cache_key with
  | some (.metrics ms) =>
    -- line 318: `FinancialMetrics(**metric)[0]` subscripts a record; the
    -- records of the data model are not sequences, so a non-empty hit raises.
    -- Modelled from the spec: records are plain typed records (§3), not
    -- subscriptable sequences. On an empty stored batch the comprehension is
    -- empty and the outer `[0]` raises IndexError instead.
    (match ms with
     | [] => ⟨.error .indexError, cache, 0⟩
     | _ :: _ => ⟨.error .typeError, cache, 0⟩)
  | some _ => ⟨.error .typeError, cache, 0⟩
  | none =>
    let response := fetch (market_cap_url ticker end_date)
    -- non-200 only prints; no 404 branch
    match response.decoded with
    | none => ⟨.error .decodeError, cache, 1⟩
    | some financial_metrics =>
      -- line 333: `financial_metrics[0]` before any emptiness check
      match financial_metrics with
      | [] => ⟨.error .indexError, cache, 1⟩
      | m :: _ =>
        let market_cap := m.market_cap
        if marketCapFalsy market_cap then
          -- line 336: `return []` in a `float | None` function
          ⟨.ok .emptyList, cache, 1⟩
        else
          ⟨.ok (.float (market_cap.getD 0)),
            cache.insertKV cache_key (.metrics financial_metrics), 1⟩

/-- The façade operations of `api.py`. -/
inductive ApiOp where
  | pricesOp
  | financialMetricsOp
  | lineItemsOp
  | insiderTradesOp
  | companyNewsOp
  | marketCapOp
deriving DecidableEq

/-- Which operations the `tenacity` retry decorator actually wraps: line 109
reads `retry(wait=wait_random_exponential(multiplier=1, max=60))` WITHOUT the
`@`, a bare expression statement, so `search_line_items` is not wrapped. -/
def retry_wrapped : ApiOp → Bool
  | .lineItemsOp => false
  | _ => true

/-- `tenacity.wait_random_exponential(multiplier, max)`: before attempt
`attempt` the wait is drawn uniformly from `[0, min(max, multiplier * 2 ^ attempt)]`.
The random draw is supplied as `draw` and reduced into the interval. -/
def wait_random_exponential (multiplier maxDelay attempt draw : Nat) : Nat :=
  let high := min maxDelay (multiplier * 2 ^ attempt)
  draw % (high + 1)

/-- Tenacity's default stop condition (`stop_after_attempt` absent): never
stop, i.e. the retry count is unbounded. -/
def tenacity_stop (_attempt : Nat) : Bool := false

/-- Tenacity's default retry condition (`retry=` absent): retry if and only
if the attempt raised an exception, whatever the exception. Combined with the
decorator table: an attempt of operation `op` with outcome `o` is retried iff
the function is wrapped and the outcome is an exception. -/
def retried_after {R : Type} (op : ApiOp) (o : Except ApiError R) : Bool :=
  retry_wrapped op &&
    (match o with
     | .error _ => true
     | .ok _ => false)

/-- A dumped row: `p.model_dump()` produces a fresh field mapping of the
record (Modelled from the spec: the decoder and its dump are external;
dumping yields the record's fields). -/
def Price.model_dump (p : Price) : Price :=
  ⟨p.time, p.open_, p.close, p.high, p.low, p.volume⟩

/-- `pd.to_datetime` on an ISO-8601 day string: the time index value derived
from the `time` field (kept as the string, whose lexicographic order is
chronological order). -/
def to_datetime (s : String) : String := s

/-- The price frame: dumped rows and the parallel `Date` index produced by
`set_index`. -/
structure DataFrame where
  rows : List Price
  index : List String
deriving DecidableEq

/-- `prices_to_df` (api.py lines 344-353): build a frame from dumped copies of
the records, add the `Date` column, set it as the index, coerce the numeric
columns (already numeric in the model) and sort by the index. On an empty
record list `pd.DataFrame([])` has no columns at all, so line 347's
`df["time"]` raises `KeyError` before any frame is produced. -/
def prices_to_df (prices : List Price) : Except ApiError DataFrame :=
  if prices.isEmpty then .error .keyError
  else
    let rows := prices.map Price.model_dump
    let paired := rows.map (fun r => (r, to_datetime r.time))
    let sorted := paired.mergeSort (fun a b => pyStrLe a.2 b.2)
    .ok ⟨sorted.map Prod.fst, sorted.map Prod.snd⟩

/-- The frame conversion with its heap effect made explicit: the pair of the
source record list after the call and the call's outcome (the frame, or the
`KeyError` raised on an empty list). No statement of `prices_to_df` writes to
the source list (the frame is built from dumped copies), so the first
component is the unchanged input, also when the conversion raises. -/
def prices_to_df_effect (prices : List Price) :
    List Price × Except ApiError DataFrame :=
  (prices, prices_to_df prices)

/-- `get_price_data` (api.py lines 357-359): fetch then convert; an exception
raised by either step propagates (in particular the `KeyError` that
`prices_to_df` raises whenever `get_prices` returned an empty list). -/
def get_price_data (fetch : String → HttpResponse (List Price)) (cache : Cache)
    (ticker start_date end_date : String) :
    Except ApiError DataFrame × Cache × Nat :=
  let r := get_prices fetch cache ticker start_date end_date
  match r.outcome with
  | .ok prices => ((prices_to_df_effect prices).2, r.cache, r.fetches)
  | .error e => (.error e, r.cache, r.fetches)

/-- Decimal digits of `n`, most significant first (the list
`Nat.toDigitsCore` produces with sufficient fuel). -/
def digitsOf (n : Nat) : List Char :=
  if h : n / 10 = 0 then [Nat.digitChar (n % 10)]
  else digitsOf (n / 10) ++ [Nat.digitChar (n % 10)]
decreasing_by
  exact Nat.div_lt_self (by omega) (by omega)

/-- Value of a decimal digit character. -/
def charVal (c : Char) : Nat :=
  if c = '0' then 0 else if c = '1' then 1 else if c = '2' then 2
  else if c = '3' then 3 else if c = '4' then 4 else if c = '5' then 5
  else if c = '6' then 6 else if c = '7' then 7 else if c = '8' then 8
  else if c = '9' then 9 else 0

/-- Provider whose metrics endpoint always decodes to an empty list. -/
def fetchMetricsEmpty : String → HttpResponse (List FinancialMetrics) :=
  fun _ => ⟨200, some []⟩

/-- Provider returning one metrics record whose `market_cap` field is absent. -/
def fetchMetricsNoCap : String → HttpResponse (List FinancialMetrics) :=
  fun _ => ⟨200, some [⟨"2024-01-01", "ttm", none⟩]⟩

/-- Provider answering 404 with a body that does not match the schema. -/
def fetchMetrics404 : String → HttpResponse (List FinancialMetrics) :=
  fun _ => ⟨404, none⟩

/-- Provider answering 200 with a body that does not match the price schema. -/
def fetchPricesBad : String → HttpResponse (List Price) :=
  fun _ => ⟨200, some []⟩

/-- Provider answering 200 with an undecodable price body. -/
def fetchPricesUndecodable : String → HttpResponse (List Price) :=
  fun _ => ⟨200, none⟩

/-- One concrete price record used by witnesses. -/
def price1 : Price := ⟨"2020-01-02", 100, 101, 102, 99, 1000⟩

/-- Provider returning exactly one price record. -/
def fetchPriceOne : String → HttpResponse (List Price) :=
  fun _ => ⟨200, some [price1]⟩

/-- Provider for the line-items endpoint that encodes the requested `limit`
into the returned record, making results of different limits observably different. -/
def fetchLineItemsEcho : String → LineItemsBody → HttpResponse (List LineItems) :=
  fun _ body => ⟨200, some [⟨"2024-01-01", "revenue", Int.ofNat body.limit⟩]⟩

/-- Provider answering 404 with an undecodable price body. -/
def fetchPrices404 : String → HttpResponse (List Price) :=
  fun _ => ⟨404, none⟩

/-- Python `a < b` on strings. -/
def pyStrLt (a b : String) : Bool := !(pyStrLe b a)

/-- A synthetic insider-trades provider in the sense of the spec's pagination
property: starting from `cursor`, the provider serves the listed pages in
order; every page but the last is full (`length = limit`) and keeps the walk
strictly above `start_date`; the last page is short. The next cursor is
always the day part of the minimum filing date of the current page, exactly
as the loop computes it. -/
inductive TradesServes (fetch : String → HttpResponse (List InsiderTrade))
    (ticker sd : String) (limit : Nat) :
    String → List (List InsiderTrade) → Prop where
  | last : ∀ cursor page,
      (fetch (insider_trades_url ticker cursor (some sd) limit)).decoded = some page →
      page ≠ [] → page.length < limit →
      TradesServes fetch ticker sd limit cursor [page]
  | cons : ∀ cursor page pages,
      (fetch (insider_trades_url ticker cursor (some sd) limit)).decoded = some page →
      page.length = limit →
      pyStrLe (dateOnly (min_filing_date page)) sd = false →
      TradesServes fetch ticker sd limit (dateOnly (min_filing_date page)) pages →
      TradesServes fetch ticker sd limit cursor (page :: pages)

/-- A synthetic company-news provider, the analogue of `TradesServes` for the
news pagination loop (cursor advances through the day part of the minimum
`date` of the current page). -/
inductive NewsServes (fetch : String → HttpResponse (List CompanyNews))
    (ticker sd : String) (limit : Nat) :
    String → List (List CompanyNews) → Prop where
  | last : ∀ cursor page,
      (fetch (company_news_url ticker cursor (some sd) limit)).decoded = some page →
      page ≠ [] → page.length < limit →
      NewsServes fetch ticker sd limit cursor [page]
  | cons : ∀ cursor page pages,
      (fetch (company_news_url ticker cursor (some sd) limit)).decoded = some page →
      page.length = limit →
      pyStrLe (dateOnly (min_news_date page)) sd = false →
      NewsServes fetch ticker sd limit (dateOnly (min_news_date page)) pages →
      NewsServes fetch ticker sd limit cursor (page :: pages)

def c3t1 : InsiderTrade := ⟨"2020-03-01", 1⟩

def c3t2 : InsiderTrade := ⟨"2020-02-15", 2⟩

def c3t3 : InsiderTrade := ⟨"2020-02-01", 3⟩

/-- Synthetic provider for the C3 witness: a full first page of two trades,
then a short page of one older trade. -/
def c3fetch : String → HttpResponse (List InsiderTrade) := fun url =>
  if url = insider_trades_url "T" "2020-03-01" (some "2020-01-01") 2 then
    ⟨200, some [c3t1, c3t2]⟩
  else if url = insider_trades_url "T" "2020-02-15" (some "2020-01-01") 2 then
    ⟨200, some [c3t3]⟩
  else ⟨200, none⟩

def c8t1 : InsiderTrade := ⟨"2020-02-10", 5⟩

def c8t2 : InsiderTrade := ⟨"2020-01-01", 6⟩

/-- Provider for the C8 witness: one full page whose oldest filing date is
exactly the start date. -/
def c8fetch : String → HttpResponse (List InsiderTrade) := fun url =>
  if url = insider_trades_url "T" "2020-03-01" (some "2020-01-01") 2 then
    ⟨200, some [c8t1, c8t2]⟩
  else ⟨200, none⟩

/-- First price record of the C9 witness (earlier time). -/
def c9p1 : Price := ⟨"2020-01-02", 10, 11, 12, 9, 500⟩

/-- Second price record of the C9 witness (later time). -/
def c9p2 : Price := ⟨"2020-01-03", 20, 21, 22, 19, 600⟩

/-- Provider answering 404 to the prices endpoint, so that `get_prices`
returns an empty list and `get_price_data` runs the frame conversion on
it. -/
def c9fetch404 : String → HttpResponse (List Price) :=
  fun _ => ⟨404, none⟩

/-! ## Theorems -/

@[simp] theorem price_reconstruct_eq (p : Price) : p.reconstruct = p := rfl

@[simp] theorem metrics_reconstruct_eq (m : FinancialMetrics) :
    m.reconstruct = m := rfl

@[simp] theorem line_items_reconstruct_eq (l : LineItems) : l.reconstruct = l := rfl

@[simp] theorem trade_reconstruct_eq (t : InsiderTrade) :
    t.reconstruct = t := rfl

@[simp] theorem news_reconstruct_eq (n : CompanyNews) : n.reconstruct = n := rfl

@[simp] theorem Cache.lookup_insert (c : Cache) (k : String) (v : CacheValue) :
    (c.insertKV k v).lookup k = some v := by
  simp [Cache.lookup, Cache.insertKV, List.find?]

@[simp] theorem Cache.lookup_nil (k : String) : Cache.lookup [] k = none := rfl

@[simp] theorem Price.model_dump_eq (p : Price) : p.model_dump = p := rfl

theorem toDigitsCore_eq_digitsOf :
    ∀ fuel n ds, n < 10 ^ (fuel + 1) →
      Nat.toDigitsCore 10 (fuel + 1) n ds = digitsOf n ++ ds := by
  intro fuel
  induction fuel with
  | zero =>
    intro n ds hn
    have h0 : n / 10 = 0 := Nat.div_eq_of_lt (by simpa using hn)
    simp [Nat.toDigitsCore, h0, digitsOf]
  | succ f ih =>
    intro n ds hn
    by_cases h0 : n / 10 = 0
    · simp [Nat.toDigitsCore, h0, digitsOf]
    · rw [show Nat.toDigitsCore 10 (f + 1 + 1) n ds =
          Nat.toDigitsCore 10 (f + 1) (n / 10) (Nat.digitChar (n % 10) :: ds) by
        simp [Nat.toDigitsCore, h0]]
      rw [ih (n / 10) (Nat.digitChar (n % 10) :: ds)
        (by
          have : n < 10 ^ (f + 1) * 10 := by
            rw [← pow_succ]; exact hn
          exact Nat.div_lt_of_lt_mul (by omega))]
      conv_rhs => rw [digitsOf]
      rw [dif_neg h0]
      simp

theorem repr_eq_digitsOf (n : Nat) : Nat.repr n = (digitsOf n).asString := by
  have hn : n < 10 ^ (n + 1) :=
    lt_of_lt_of_le (Nat.lt_pow_self (by norm_num) n)
      (Nat.pow_le_pow_right (by norm_num) (by omega))
  show (Nat.toDigits 10 n).asString = (digitsOf n).asString
  rw [Nat.toDigits, toDigitsCore_eq_digitsOf n n [] hn, List.append_nil]

theorem charVal_digitChar : ∀ d, d < 10 → charVal (Nat.digitChar d) = d := by decide

theorem foldl_digitsOf (n : Nat) :
    ∀ a, List.foldl (fun x c => 10 * x + charVal c) a (digitsOf n) =
      a * 10 ^ (digitsOf n).length + n := by
  induction n using Nat.strong_induction_on with
  | _ n ih =>
    intro a
    have hv : charVal ((n % 10).digitChar) = n % 10 :=
      charVal_digitChar (n % 10) (by omega)
    by_cases h : n / 10 = 0
    · have hlt : n < 10 := by omega
      rw [digitsOf, dif_pos h]
      simp only [List.foldl, List.length_cons, List.length_nil, pow_one,
        pow_zero, zero_add]
      rw [hv]
      omega
    · have hpos : 0 < n := by
        rcases Nat.eq_zero_or_pos n with h0 | h0
        · subst h0; simp at h
        · exact h0
      rw [digitsOf, dif_neg h]
      rw [List.foldl_append]
      rw [ih (n / 10) (Nat.div_lt_self hpos (by omega)) a]
      simp only [List.foldl, List.length_append, List.length_cons,
        List.length_nil, zero_add]
      rw [hv, pow_succ, ← mul_assoc]
      have key : ∀ m : Nat, 10 * (m + n / 10) + n % 10 = m * 10 + n := by
        intro m; omega
      exact key (a * 10 ^ (digitsOf (n / 10)).length)

theorem digitsOf_inj {m n : Nat} (h : digitsOf m = digitsOf n) : m = n := by
  have hm := foldl_digitsOf m 0
  have hn := foldl_digitsOf n 0
  rw [h] at hm
  omega

theorem natRepr_inj {m n : Nat} (h : Nat.repr m = Nat.repr n) : m = n := by
  rw [repr_eq_digitsOf, repr_eq_digitsOf] at h
  exact digitsOf_inj (by
    have := congrArg String.data h
    simpa [List.asString] using this)

/-- If neither prefix contains the separator, an underscore-joined string
determines its head and tail. -/
theorem sep_peel {a c x y : List Char} (ha : '_' ∉ a) (hc : '_' ∉ c)
    (h : a ++ '_' :: x = c ++ '_' :: y) : a = c ∧ x = y := by
  induction a generalizing c with
  | nil =>
    cases c with
    | nil => simpa using h
    | cons ch ct =>
      simp only [List.nil_append, List.cons_append, List.cons.injEq] at h
      exact absurd (h.1 ▸ List.mem_cons_self ch ct) (h.1 ▸ hc)
  | cons ah tl ih =>
    cases c with
    | nil =>
      simp only [List.nil_append, List.cons_append, List.cons.injEq] at h
      exact absurd (h.1 ▸ List.mem_cons_self ah tl) (by rw [h.1] at ha; exact ha)
    | cons ch ct =>
      simp only [List.cons_append, List.cons.injEq] at h
      obtain ⟨h1, h2⟩ := h
      have htl : '_' ∉ tl := fun hm => ha (List.mem_cons_of_mem ah hm)
      have hct : '_' ∉ ct := fun hm => hc (List.mem_cons_of_mem ch hm)
      obtain ⟨h3, h4⟩ := ih htl hct h2
      exact ⟨by rw [h1, h3], h4⟩

theorem prices_cache_key_inj {t s e t' s' e' : String}
    (ht : '_' ∉ t.data) (ht' : '_' ∉ t'.data)
    (hs : '_' ∉ s.data) (hs' : '_' ∉ s'.data) :
    prices_cache_key t s e = prices_cache_key t' s' e' ↔
      t = t' ∧ s = s' ∧ e = e' := by
  constructor
  · intro h
    have hd := congrArg String.data h
    simp only [prices_cache_key, String.data_append, List.cons_append,
      List.nil_append, List.append_assoc] at hd
    obtain ⟨h1, h2⟩ := sep_peel ht ht' hd
    simp only [List.cons.injEq, true_and] at h2
    obtain ⟨h3, h4⟩ := sep_peel hs hs' h2
    exact ⟨String.ext h1, String.ext h3, String.ext h4⟩
  · rintro ⟨rfl, rfl, rfl⟩; rfl

theorem metrics_cache_key_inj {t p e t' p' e' : String} {l l' : Nat}
    (ht : '_' ∉ t.data) (ht' : '_' ∉ t'.data)
    (hp : '_' ∉ p.data) (hp' : '_' ∉ p'.data)
    (he : '_' ∉ e.data) (he' : '_' ∉ e'.data) :
    metrics_cache_key t p e l = metrics_cache_key t' p' e' l' ↔
      t = t' ∧ p = p' ∧ e = e' ∧ l = l' := by
  constructor
  · intro h
    have hd := congrArg String.data h
    simp only [metrics_cache_key, String.data_append, List.cons_append,
      List.nil_append, List.append_assoc] at hd
    obtain ⟨h1, h2⟩ := sep_peel ht ht' hd
    simp only [List.cons.injEq, true_and] at h2
    obtain ⟨h3, h4⟩ := sep_peel hp hp' h2
    obtain ⟨h5, h6⟩ := sep_peel he he' h4
    refine ⟨String.ext h1, String.ext h3, String.ext h5, natRepr_inj ?_⟩
    exact String.ext h6
  · rintro ⟨rfl, rfl, rfl, rfl⟩; rfl

theorem insider_trades_cache_key_inj {t e t' e' : String}
    {sd sd' : Option String} {l l' : Nat}
    (ht : '_' ∉ t.data) (ht' : '_' ∉ t'.data)
    (hsd : '_' ∉ (strOrNone sd).data) (hsd' : '_' ∉ (strOrNone sd').data)
    (he : '_' ∉ e.data) (he' : '_' ∉ e'.data) :
    insider_trades_cache_key t sd e l = insider_trades_cache_key t' sd' e' l' ↔
      t = t' ∧ strOrNone sd = strOrNone sd' ∧ e = e' ∧ l = l' := by
  constructor
  · intro h
    have hd := congrArg String.data h
    simp only [insider_trades_cache_key, String.data_append, List.cons_append,
      List.nil_append, List.append_assoc] at hd
    obtain ⟨h1, h2⟩ := sep_peel ht ht' hd
    simp only [List.cons.injEq, true_and] at h2
    obtain ⟨h3, h4⟩ := sep_peel hsd hsd' h2
    obtain ⟨h5, h6⟩ := sep_peel he he' h4
    refine ⟨String.ext h1, String.ext h3, String.ext h5, natRepr_inj ?_⟩
    exact String.ext h6
  · rintro ⟨rfl, hmid, rfl, rfl⟩
    simp only [insider_trades_cache_key, hmid]

theorem company_news_cache_key_inj {t e t' e' : String}
    {sd sd' : Option String} {l l' : Nat}
    (ht : '_' ∉ t.data) (ht' : '_' ∉ t'.data)
    (hsd : '_' ∉ (strOrNone sd).data) (hsd' : '_' ∉ (strOrNone sd').data)
    (he : '_' ∉ e.data) (he' : '_' ∉ e'.data) :
    company_news_cache_key t sd e l = company_news_cache_key t' sd' e' l' ↔
      t = t' ∧ strOrNone sd = strOrNone sd' ∧ e = e' ∧ l = l' := by
  constructor
  · intro h
    have hd := congrArg String.data h
    simp only [company_news_cache_key, String.data_append, List.cons_append,
      List.nil_append, List.append_assoc] at hd
    obtain ⟨h1, h2⟩ := sep_peel ht ht' hd
    simp only [List.cons.injEq, true_and] at h2
    obtain ⟨h3, h4⟩ := sep_peel hsd hsd' h2
    obtain ⟨h5, h6⟩ := sep_peel he he' h4
    refine ⟨String.ext h1, String.ext h3, String.ext h5, natRepr_inj ?_⟩
    exact String.ext h6
  · rintro ⟨rfl, hmid, rfl, rfl⟩
    simp only [company_news_cache_key, hmid]

/-- C10: `search_line_items` ignores its `line_items_list` argument: two calls
differing only in that argument have the same cache key, issue the same
request body (built from the fixed hard-coded list of 30 line-item names) and
return the same result from the same cache. -/
theorem C10_line_items_list_no_influence
    (fetchPost : String → LineItemsBody → HttpResponse (List LineItems))
    (cache : Cache) (ticker : String) (l1 l2 : List String)
    (end_date period : String) (limit : Nat) :
    search_line_items fetchPost cache ticker l1 end_date period limit =
      search_line_items fetchPost cache ticker l2 end_date period limit
    ∧ line_items_body ticker end_date period limit =
        ⟨[ticker], hard_coded_line_items, end_date, period, limit⟩
    ∧ hard_coded_line_items.length = 30 :=
  ⟨rfl, rfl, rfl⟩

/-- C6 (code evaluated at the failing input): the retry decorator line above
`search_line_items` lacks the `@`, so that operation is NOT wrapped, while
the five other façade operations are; where the policy does apply it is
`wait_random_exponential(multiplier=1, max=60)` with unbounded attempts and
every waiting time capped at 60. -/
theorem C6_retry_wrapping :
    retry_wrapped .lineItemsOp = false
    ∧ retry_wrapped .pricesOp = true
    ∧ retry_wrapped .financialMetricsOp = true
    ∧ retry_wrapped .insiderTradesOp = true
    ∧ retry_wrapped .companyNewsOp = true
    ∧ retry_wrapped .marketCapOp = true
    ∧ (∀ attempt draw, wait_random_exponential 1 60 attempt draw ≤ 60)
    ∧ (∀ attempt, tenacity_stop attempt = false) := by
  refine ⟨rfl, rfl, rfl, rfl, rfl, rfl, ?_, fun _ => rfl⟩
  intro attempt draw
  simp only [wait_random_exponential]
  have h1 : draw % (min 60 (1 * 2 ^ attempt) + 1) < min 60 (1 * 2 ^ attempt) + 1 :=
    Nat.mod_lt _ (by omega)
  have h2 : min 60 (1 * 2 ^ attempt) ≤ 60 := min_le_left _ _
  omega

/-- C5 (code evaluated at the failing inputs): `get_market_cap` does request
`limit=1, period=ttm`, but on an empty metrics list it raises `IndexError`
(line 333 indexes `financial_metrics[0]` before any emptiness check) instead
of returning `None`, and on an absent `market_cap` field it returns the empty
list `[]` (line 336) instead of `None`. -/
theorem C5_market_cap_failing_inputs :
    market_cap_url "AAPL" "2024-06-01" = metrics_url "AAPL" "2024-06-01" "ttm" 1
    ∧ get_market_cap fetchMetricsEmpty [] "AAPL" "2024-06-01" =
        ⟨.error .indexError, [], 1⟩
    ∧ get_market_cap fetchMetricsNoCap [] "AAPL" "2024-06-01" =
        ⟨.ok .emptyList, [], 1⟩
    ∧ retried_after .marketCapOp
        (Except.error .indexError : Except ApiError PyValue) = true := by
  refine ⟨by decide, by decide, by decide, rfl⟩

/-- C4 counterexample: a 404 from the provider does NOT yield an empty list
from `get_financial_metrics`: the function has no 404 branch, decodes the 404
body, raises a decode error, writes nothing, and the exception is retried by
the decorator. -/
theorem C4_counterexample_404_metrics :
    get_financial_metrics fetchMetrics404 [] "AAPL" "2024-06-01" "ttm" 10 =
      ⟨.error .decodeError, [], 1⟩
    ∧ retried_after .financialMetricsOp
        (Except.error .decodeError : Except ApiError (List FinancialMetrics)) = true := by
  refine ⟨by decide, rfl⟩

/-- C7 counterexample: a decode failure in `get_prices` (HTTP 200, body not
matching the schema) leaves the cache unchanged but IS retried: the tenacity
decorator has no retry condition, so it retries every exception, including
the Pydantic validation error. -/
theorem C7_counterexample_decode_retried :
    get_prices fetchPricesUndecodable [] "AAPL" "2020-01-01" "2020-02-01" =
      ⟨.error .decodeError, [], 1⟩
    ∧ retried_after .pricesOp
        (Except.error .decodeError : Except ApiError (List Price)) = true := by
  refine ⟨by decide, rfl⟩

/-- C1 counterexample: when the provider returns an empty price list, the
first call stores nothing, so the identical second call issues a second
network fetch: two calls perform two fetches, not one. -/
theorem C1_counterexample_empty_not_cached :
    get_prices fetchPricesBad [] "AAPL" "2020-01-01" "2020-02-01" =
      ⟨.ok [], [], 1⟩
    ∧ (get_prices fetchPricesBad
        (get_prices fetchPricesBad [] "AAPL" "2020-01-01" "2020-02-01").cache
        "AAPL" "2020-01-01" "2020-02-01").fetches = 1 := by
  refine ⟨by decide, by decide⟩

@[simp] theorem map_reconstruct_prices (l : List Price) :
    l.map Price.reconstruct = l := by
  have h : Price.reconstruct = id := funext fun p => rfl
  rw [h, List.map_id]

@[simp] theorem map_reconstruct_metrics (l : List FinancialMetrics) :
    l.map FinancialMetrics.reconstruct = l := by
  have h : FinancialMetrics.reconstruct = id := funext fun p => rfl
  rw [h, List.map_id]

@[simp] theorem map_reconstruct_line_items (l : List LineItems) :
    l.map LineItems.reconstruct = l := by
  have h : LineItems.reconstruct = id := funext fun p => rfl
  rw [h, List.map_id]

@[simp] theorem map_reconstruct_trades (l : List InsiderTrade) :
    l.map InsiderTrade.reconstruct = l := by
  have h : InsiderTrade.reconstruct = id := funext fun p => rfl
  rw [h, List.map_id]

@[simp] theorem map_reconstruct_news (l : List CompanyNews) :
    l.map CompanyNews.reconstruct = l := by
  have h : CompanyNews.reconstruct = id := funext fun p => rfl
  rw [h, List.map_id]

/-- After a call to `get_prices` that returned a non-empty `.ok` list, the
key is bound in the returned cache, and any later call with the same
parameters is a pure cache hit: same list, same cache, zero fetches. -/
theorem get_prices_cached
    {fetch : String → HttpResponse (List Price)} {cache : Cache}
    {ticker start_date end_date : String} {r : List Price} {c1 : Cache} {n : Nat}
    (h : get_prices fetch cache ticker start_date end_date = ⟨.ok r, c1, n⟩)
    (hne : r ≠ []) :
    ∀ fetch2, get_prices fetch2 c1 ticker start_date end_date = ⟨.ok r, c1, 0⟩ := by
  intro fetch2
  unfold get_prices at h ⊢
  dsimp only at h ⊢
  split at h
  · rename_i ps heq
    rw [RunResult.mk.injEq] at h
    obtain ⟨ho, hc, -⟩ := h
    subst hc
    rw [heq]
    dsimp only
    rw [ho]
  · rename_i heq hne2
    simp at h
  · rename_i heq
    split at h
    · rw [RunResult.mk.injEq] at h
      obtain ⟨ho, -, -⟩ := h
      exact absurd (Except.ok.inj ho).symm hne
    · split at h
      · simp at h
      · rename_i ps hdec
        split at h
        · rw [RunResult.mk.injEq] at h
          obtain ⟨ho, -, -⟩ := h
          exact absurd (Except.ok.inj ho).symm hne
        · rw [RunResult.mk.injEq] at h
          obtain ⟨ho, hc, -⟩ := h
          have hr : ps = r := Except.ok.inj ho
          subst hr
          rw [← hc, Cache.lookup_insert]
          dsimp only
          rw [map_reconstruct_prices]

/-- After a call to `get_financial_metrics` that returned a non-empty `.ok`
list, any later same-parameter call is a pure cache hit. -/
theorem get_financial_metrics_cached
    {fetch : String → HttpResponse (List FinancialMetrics)} {cache : Cache}
    {ticker end_date period : String} {limit : Nat}
    {r : List FinancialMetrics} {c1 : Cache} {n : Nat}
    (h : get_financial_metrics fetch cache ticker end_date period limit =
      ⟨.ok r, c1, n⟩)
    (hne : r ≠ []) :
    ∀ fetch2, get_financial_metrics fetch2 c1 ticker end_date period limit =
      ⟨.ok r, c1, 0⟩ := by
  intro fetch2
  unfold get_financial_metrics at h ⊢
  dsimp only at h ⊢
  split at h
  · rename_i ms heq
    rw [RunResult.mk.injEq] at h
    obtain ⟨ho, hc, -⟩ := h
    subst hc
    rw [heq]
    dsimp only
    rw [ho]
  · simp at h
  · rename_i heq
    split at h
    · simp at h
    · rename_i ms hdec
      split at h
      · rw [RunResult.mk.injEq] at h
        obtain ⟨ho, -, -⟩ := h
        exact absurd (Except.ok.inj ho).symm hne
      · rw [RunResult.mk.injEq] at h
        obtain ⟨ho, hc, -⟩ := h
        have hr : ms = r := Except.ok.inj ho
        subst hr
        rw [← hc, Cache.lookup_insert]
        dsimp only
        rw [map_reconstruct_metrics]

/-- After a call to `search_line_items` that returned `.ok` (the function
caches even an empty result), any later call with the same ticker, period and
end date — whatever its `line_items_list` and `limit` — is a pure cache hit. -/
theorem search_line_items_cached
    {fetchPost : String → LineItemsBody → HttpResponse (List LineItems)}
    {cache : Cache} {ticker : String} {ll : List String}
    {end_date period : String} {limit : Nat}
    {r : List LineItems} {c1 : Cache} {n : Nat}
    (h : search_line_items fetchPost cache ticker ll end_date period limit =
      ⟨.ok r, c1, n⟩) :
    ∀ fetchPost2 ll2 limit2,
      search_line_items fetchPost2 c1 ticker ll2 end_date period limit2 =
        ⟨.ok r, c1, 0⟩ := by
  intro fetchPost2 ll2 limit2
  unfold search_line_items at h ⊢
  dsimp only at h ⊢
  split at h
  · rename_i ls heq
    rw [RunResult.mk.injEq] at h
    obtain ⟨ho, hc, -⟩ := h
    subst hc
    rw [heq]
    dsimp only
    rw [ho]
  · simp at h
  · rename_i heq
    split at h
    · simp at h
    · rename_i ls hdec
      rw [RunResult.mk.injEq] at h
      obtain ⟨ho, hc, -⟩ := h
      have hr : ls = r := Except.ok.inj ho
      subst hr
      rw [← hc, Cache.lookup_insert]
      dsimp only
      rw [map_reconstruct_line_items]

/-- After a call to `get_insider_trades` that returned a non-empty `.ok`
list, any later same-parameter call is a pure cache hit, whatever its fuel. -/
theorem get_insider_trades_cached
    {fetch : String → HttpResponse (List InsiderTrade)} {cache : Cache}
    {ticker end_date : String} {start_date : Option String} {limit fuel : Nat}
    {r : List InsiderTrade} {c1 : Cache} {n : Nat}
    (h : get_insider_trades fetch cache ticker end_date start_date limit fuel =
      some ⟨.ok r, c1, n⟩)
    (hne : r ≠ []) :
    ∀ fetch2 fuel2,
      get_insider_trades fetch2 c1 ticker end_date start_date limit fuel2 =
        some ⟨.ok r, c1, 0⟩ := by
  intro fetch2 fuel2
  unfold get_insider_trades at h ⊢
  dsimp only at h ⊢
  split at h
  · rename_i ts heq
    rw [Option.some.injEq, RunResult.mk.injEq] at h
    obtain ⟨ho, hc, -⟩ := h
    subst hc
    rw [heq]
    dsimp only
    rw [ho]
  · simp at h
  · rename_i heq
    split at h
    · simp at h
    · simp at h
    · rename_i all nn heq2
      split at h
      · rw [Option.some.injEq, RunResult.mk.injEq] at h
        obtain ⟨ho, -, -⟩ := h
        exact absurd (Except.ok.inj ho).symm hne
      · rw [Option.some.injEq, RunResult.mk.injEq] at h
        obtain ⟨ho, hc, -⟩ := h
        have hr : all = r := Except.ok.inj ho
        subst hr
        rw [← hc, Cache.lookup_insert]
        dsimp only
        rw [map_reconstruct_trades]

/-- After a call to `get_company_news` that returned a non-empty `.ok` list,
any later same-parameter call is a pure cache hit, whatever its fuel. -/
theorem get_company_news_cached
    {fetch : String → HttpResponse (List CompanyNews)} {cache : Cache}
    {ticker end_date : String} {start_date : Option String} {limit fuel : Nat}
    {r : List CompanyNews} {c1 : Cache} {n : Nat}
    (h : get_company_news fetch cache ticker end_date start_date limit fuel =
      some ⟨.ok r, c1, n⟩)
    (hne : r ≠ []) :
    ∀ fetch2 fuel2,
      get_company_news fetch2 c1 ticker end_date start_date limit fuel2 =
        some ⟨.ok r, c1, 0⟩ := by
  intro fetch2 fuel2
  unfold get_company_news at h ⊢
  dsimp only at h ⊢
  split at h
  · rename_i ns heq
    rw [Option.some.injEq, RunResult.mk.injEq] at h
    obtain ⟨ho, hc, -⟩ := h
    subst hc
    rw [heq]
    dsimp only
    rw [ho]
  · simp at h
  · rename_i heq
    split at h
    · simp at h
    · simp at h
    · rename_i all nn heq2
      split at h
      · rw [Option.some.injEq, RunResult.mk.injEq] at h
        obtain ⟨ho, -, -⟩ := h
        exact absurd (Except.ok.inj ho).symm hne
      · rw [Option.some.injEq, RunResult.mk.injEq] at h
        obtain ⟨ho, hc, -⟩ := h
        have hr : all = r := Except.ok.inj ho
        subst hr
        rw [← hc, Cache.lookup_insert]
        dsimp only
        rw [map_reconstruct_news]

/-- C1 (amended): provided the first call returns a non-empty `.ok` record
list (for `search_line_items`, any `.ok` list: it caches even empty results),
an identical second call performs no network fetch and is served entirely
from the Cache Store, returning the equal record list and leaving the cache
unchanged. When the first call returns an empty list, nothing is written and
the second call fetches again (see the counterexample). -/
theorem C1_cache_idempotence_amended :
    (∀ fetch cache ticker start_date end_date r c1 n,
      get_prices fetch cache ticker start_date end_date = ⟨.ok r, c1, n⟩ →
      r ≠ [] →
      get_prices fetch c1 ticker start_date end_date = ⟨.ok r, c1, 0⟩)
    ∧ (∀ fetch cache ticker end_date period limit r c1 n,
      get_financial_metrics fetch cache ticker end_date period limit =
        ⟨.ok r, c1, n⟩ →
      r ≠ [] →
      get_financial_metrics fetch c1 ticker end_date period limit =
        ⟨.ok r, c1, 0⟩)
    ∧ (∀ fetchPost cache ticker ll end_date period limit r c1 n,
      search_line_items fetchPost cache ticker ll end_date period limit =
        ⟨.ok r, c1, n⟩ →
      search_line_items fetchPost c1 ticker ll end_date period limit =
        ⟨.ok r, c1, 0⟩)
    ∧ (∀ fetch cache ticker end_date start_date limit fuel r c1 n,
      get_insider_trades fetch cache ticker end_date start_date limit fuel =
        some ⟨.ok r, c1, n⟩ →
      r ≠ [] →
      ∀ fuel2,
        get_insider_trades fetch c1 ticker end_date start_date limit fuel2 =
          some ⟨.ok r, c1, 0⟩)
    ∧ (∀ fetch cache ticker end_date start_date limit fuel r c1 n,
      get_company_news fetch cache ticker end_date start_date limit fuel =
        some ⟨.ok r, c1, n⟩ →
      r ≠ [] →
      ∀ fuel2,
        get_company_news fetch c1 ticker end_date start_date limit fuel2 =
          some ⟨.ok r, c1, 0⟩) := by
  refine ⟨?_, ?_, ?_, ?_, ?_⟩
  · intro fetch cache ticker start_date end_date r c1 n h hne
    exact get_prices_cached h hne fetch
  · intro fetch cache ticker end_date period limit r c1 n h hne
    exact get_financial_metrics_cached h hne fetch
  · intro fetchPost cache ticker ll end_date period limit r c1 n h
    exact search_line_items_cached h fetchPost ll limit
  · intro fetch cache ticker end_date start_date limit fuel r c1 n h hne fuel2
    exact get_insider_trades_cached h hne fetch fuel2
  · intro fetch cache ticker end_date start_date limit fuel r c1 n h hne fuel2
    exact get_company_news_cached h hne fetch fuel2

/-- C1 witness: at a concrete provider and parameters, the second call is a
pure cache hit on the cache produced by the first call. -/
theorem C1_cache_idempotence_witness :
    get_prices fetchPriceOne
      [(prices_cache_key "AAPL" "2020-01-01" "2020-02-01", .prices [price1])]
      "AAPL" "2020-01-01" "2020-02-01" =
    ⟨.ok [price1],
      [(prices_cache_key "AAPL" "2020-01-01" "2020-02-01", .prices [price1])],
      0⟩ :=
  C1_cache_idempotence_amended.1 fetchPriceOne [] "AAPL" "2020-01-01"
    "2020-02-01" [price1]
    [(prices_cache_key "AAPL" "2020-01-01" "2020-02-01", .prices [price1])] 1
    (by decide) (by decide)

/-- C2 counterexample: two `search_line_items` calls that differ only in
`limit` (10 then 5) share the cache key — the key omits `limit` — and the
second call is served, with zero fetches, from the entry written by the
first: it returns the limit-10 record although a fresh limit-5 call (same
provider, empty cache) returns a different record. -/
theorem C2_counterexample_line_items_limit :
    search_line_items fetchLineItemsEcho [] "AAPL" [] "2024-01-01" "ttm" 10 =
      ⟨.ok [⟨"2024-01-01", "revenue", 10⟩],
        [(line_items_cache_key "AAPL" "ttm" "2024-01-01",
          .lineItems [⟨"2024-01-01", "revenue", 10⟩])], 1⟩
    ∧ search_line_items fetchLineItemsEcho
        [(line_items_cache_key "AAPL" "ttm" "2024-01-01",
          .lineItems [⟨"2024-01-01", "revenue", 10⟩])]
        "AAPL" [] "2024-01-01" "ttm" 5 =
      ⟨.ok [⟨"2024-01-01", "revenue", 10⟩],
        [(line_items_cache_key "AAPL" "ttm" "2024-01-01",
          .lineItems [⟨"2024-01-01", "revenue", 10⟩])], 0⟩
    ∧ (search_line_items fetchLineItemsEcho [] "AAPL" [] "2024-01-01" "ttm" 5).outcome =
        .ok [⟨"2024-01-01", "revenue", 5⟩] := by
  refine ⟨by decide, by decide, by decide⟩

/-- C2 (amended): for `get_prices`, `get_financial_metrics`,
`get_insider_trades` and `get_company_news` the cache key is injective in all
query parameters (ticker, date bounds — taken through the `start_date or
'none'` rendering for the paginated endpoints —, period and limit), provided
the string parameters do not contain the `_` separator; so differing
parameter tuples compute different keys and a hit requires parameter-identical
calls. `search_line_items`, however, omits `limit` from its key: any later
call with the same ticker, period and end date, whatever its limit and
`line_items_list`, is served from the entry a previous call wrote; and
`get_market_cap` uses the very key of `get_financial_metrics` with
`period=ttm, limit=10` while fetching with `limit=1`. -/
theorem C2_exact_match_key_amended :
    (∀ t s e t' s' e' : String, '_' ∉ t.data → '_' ∉ t'.data →
      '_' ∉ s.data → '_' ∉ s'.data →
      (prices_cache_key t s e = prices_cache_key t' s' e' ↔
        t = t' ∧ s = s' ∧ e = e'))
    ∧ (∀ (t p e t' p' e' : String) (l l' : Nat),
      '_' ∉ t.data → '_' ∉ t'.data → '_' ∉ p.data → '_' ∉ p'.data →
      '_' ∉ e.data → '_' ∉ e'.data →
      (metrics_cache_key t p e l = metrics_cache_key t' p' e' l' ↔
        t = t' ∧ p = p' ∧ e = e' ∧ l = l'))
    ∧ (∀ (t e t' e' : String) (sd sd' : Option String) (l l' : Nat),
      '_' ∉ t.data → '_' ∉ t'.data →
      '_' ∉ (strOrNone sd).data → '_' ∉ (strOrNone sd').data →
      '_' ∉ e.data → '_' ∉ e'.data →
      (insider_trades_cache_key t sd e l = insider_trades_cache_key t' sd' e' l' ↔
        t = t' ∧ strOrNone sd = strOrNone sd' ∧ e = e' ∧ l = l'))
    ∧ (∀ (t e t' e' : String) (sd sd' : Option String) (l l' : Nat),
      '_' ∉ t.data → '_' ∉ t'.data →
      '_' ∉ (strOrNone sd).data → '_' ∉ (strOrNone sd').data →
      '_' ∉ e.data → '_' ∉ e'.data →
      (company_news_cache_key t sd e l = company_news_cache_key t' sd' e' l' ↔
        t = t' ∧ strOrNone sd = strOrNone sd' ∧ e = e' ∧ l = l'))
    ∧ (∀ fetchPost cache ticker ll end_date period limit r c1 n,
      search_line_items fetchPost cache ticker ll end_date period limit =
        ⟨.ok r, c1, n⟩ →
      ∀ fetchPost2 ll2 limit2,
        search_line_items fetchPost2 c1 ticker ll2 end_date period limit2 =
          ⟨.ok r, c1, 0⟩)
    ∧ (∀ t e : String, market_cap_cache_key t e = metrics_cache_key t "ttm" e 10) := by
  refine ⟨?_, ?_, ?_, ?_, ?_, ?_⟩
  · intro t s e t' s' e' h1 h2 h3 h4
    exact prices_cache_key_inj h1 h2 h3 h4
  · intro t p e t' p' e' l l' h1 h2 h3 h4 h5 h6
    exact metrics_cache_key_inj h1 h2 h3 h4 h5 h6
  · intro t e t' e' sd sd' l l' h1 h2 h3 h4 h5 h6
    exact insider_trades_cache_key_inj h1 h2 h3 h4 h5 h6
  · intro t e t' e' sd sd' l l' h1 h2 h3 h4 h5 h6
    exact company_news_cache_key_inj h1 h2 h3 h4 h5 h6
  · intro fetchPost cache ticker ll end_date period limit r c1 n h
    exact search_line_items_cached h
  · intro t e
    show t ++ "_metrics_ttm_" ++ e ++ "_10" =
      t ++ "_metrics_" ++ "ttm" ++ "_" ++ e ++ "_" ++ toString 10
    have h10 : (toString 10 : String) = "10" := by decide
    rw [h10]
    rw [String.ext_iff]
    simp [String.data_append]

/-- C2 witness: at concrete underscore-free parameters, two price queries
over different date ranges compute different cache keys. -/
theorem C2_exact_match_key_witness :
    prices_cache_key "AAPL" "2020-01-01" "2020-06-01" ≠
      prices_cache_key "AAPL" "2020-01-01" "2020-12-01" := by
  intro h
  have h2 := (C2_exact_match_key_amended.1 "AAPL" "2020-01-01" "2020-06-01"
    "AAPL" "2020-01-01" "2020-12-01"
    (by decide) (by decide) (by decide) (by decide)).mp h
  exact absurd h2.2.2 (by decide)

/-- C4 (amended): only `get_prices` short-circuits a provider 404 into an
empty list, with no Cache Store write and no retry (the attempt raises no
exception, and tenacity only retries exceptions). The other operations have
no 404 branch and attempt to decode the 404 body (see the counterexample). -/
theorem C4_amended_prices_404
    (fetch : String → HttpResponse (List Price)) (cache : Cache)
    (ticker start_date end_date : String)
    (hmiss : cache.lookup (prices_cache_key ticker start_date end_date) = none)
    (h404 : (fetch (prices_url ticker start_date end_date)).status = 404) :
    get_prices fetch cache ticker start_date end_date = ⟨.ok [], cache, 1⟩
    ∧ retried_after .pricesOp
        (get_prices fetch cache ticker start_date end_date).outcome = false := by
  have hrun : get_prices fetch cache ticker start_date end_date =
      ⟨.ok [], cache, 1⟩ := by
    unfold get_prices
    dsimp only
    rw [hmiss]
    dsimp only
    rw [if_pos h404]
  exact ⟨hrun, by rw [hrun]; rfl⟩

/-- C4 witness: the amended 404 behaviour at a concrete provider and cache. -/
theorem C4_amended_prices_404_witness :
    get_prices fetchPrices404 [] "AAPL" "2020-01-01" "2020-02-01" =
      ⟨.ok [], [], 1⟩
    ∧ retried_after .pricesOp
        (get_prices fetchPrices404 [] "AAPL" "2020-01-01" "2020-02-01").outcome =
      false :=
  C4_amended_prices_404 fetchPrices404 [] "AAPL" "2020-01-01" "2020-02-01"
    (by decide) (by decide)

/-- C7 (amended): a decode failure never writes to the Cache Store — every
operation leaves the cache exactly as it was — but the call does not simply
fail: for the five decorated operations the raised decode error is retried by
the unbounded tenacity policy (its default retries every exception); only
`search_line_items`, whose decorator line lacks the `@`, fails without a
retry. -/
theorem C7_decode_failure_amended :
    (∀ fetch cache ticker start_date end_date,
      cache.lookup (prices_cache_key ticker start_date end_date) = none →
      (fetch (prices_url ticker start_date end_date)).status ≠ 404 →
      (fetch (prices_url ticker start_date end_date)).decoded = none →
      get_prices fetch cache ticker start_date end_date =
        ⟨.error .decodeError, cache, 1⟩
      ∧ retried_after .pricesOp
          (Except.error .decodeError : Except ApiError (List Price)) = true)
    ∧ (∀ fetch cache ticker end_date period limit,
      cache.lookup (metrics_cache_key ticker period end_date limit) = none →
      (fetch (metrics_url ticker end_date period limit)).decoded = none →
      get_financial_metrics fetch cache ticker end_date period limit =
        ⟨.error .decodeError, cache, 1⟩
      ∧ retried_after .financialMetricsOp
          (Except.error .decodeError : Except ApiError (List FinancialMetrics)) = true)
    ∧ (∀ fetchPost cache ticker ll end_date period limit,
      cache.lookup (line_items_cache_key ticker period end_date) = none →
      (fetchPost line_items_url (line_items_body ticker end_date period limit)).decoded = none →
      search_line_items fetchPost cache ticker ll end_date period limit =
        ⟨.error .decodeError, cache, 1⟩
      ∧ retried_after .lineItemsOp
          (Except.error .decodeError : Except ApiError (List LineItems)) = false)
    ∧ (∀ fetch cache ticker end_date start_date limit fuel,
      cache.lookup (insider_trades_cache_key ticker start_date end_date limit) = none →
      (fetch (insider_trades_url ticker end_date start_date limit)).decoded = none →
      0 < fuel →
      get_insider_trades fetch cache ticker end_date start_date limit fuel =
        some ⟨.error .decodeError, cache, 1⟩
      ∧ retried_after .insiderTradesOp
          (Except.error .decodeError : Except ApiError (List InsiderTrade)) = true)
    ∧ (∀ fetch cache ticker end_date start_date limit fuel,
      cache.lookup (company_news_cache_key ticker start_date end_date limit) = none →
      (fetch (company_news_url ticker end_date start_date limit)).decoded = none →
      0 < fuel →
      get_company_news fetch cache ticker end_date start_date limit fuel =
        some ⟨.error .decodeError, cache, 1⟩
      ∧ retried_after .companyNewsOp
          (Except.error .decodeError : Except ApiError (List CompanyNews)) = true) := by
  refine ⟨?_, ?_, ?_, ?_, ?_⟩
  · intro fetch cache ticker start_date end_date hmiss h404 hdec
    refine ⟨?_, rfl⟩
    unfold get_prices
    dsimp only
    rw [hmiss]
    dsimp only
    rw [if_neg h404, hdec]
  · intro fetch cache ticker end_date period limit hmiss hdec
    refine ⟨?_, rfl⟩
    unfold get_financial_metrics
    dsimp only
    rw [hmiss]
    dsimp only
    rw [hdec]
  · intro fetchPost cache ticker ll end_date period limit hmiss hdec
    refine ⟨?_, rfl⟩
    unfold search_line_items
    dsimp only
    rw [hmiss]
    dsimp only
    rw [hdec]
  · intro fetch cache ticker end_date start_date limit fuel hmiss hdec hfuel
    refine ⟨?_, rfl⟩
    cases fuel with
    | zero => exact absurd hfuel (by omega)
    | succ f =>
      unfold get_insider_trades
      dsimp only
      rw [hmiss]
      dsimp only
      unfold insider_trades_loop
      dsimp only
      rw [hdec]
  · intro fetch cache ticker end_date start_date limit fuel hmiss hdec hfuel
    refine ⟨?_, rfl⟩
    cases fuel with
    | zero => exact absurd hfuel (by omega)
    | succ f =>
      unfold get_company_news
      dsimp only
      rw [hmiss]
      dsimp only
      unfold company_news_loop
      dsimp only
      rw [hdec]

/-- C7 witness: the amended decode-failure behaviour at a concrete provider
(HTTP 200, undecodable body) and empty cache. -/
theorem C7_decode_failure_witness :
    get_prices fetchPricesUndecodable [] "AAPL" "2020-01-01" "2020-02-01" =
      ⟨.error .decodeError, [], 1⟩
    ∧ retried_after .pricesOp
        (Except.error .decodeError : Except ApiError (List Price)) = true :=
  C7_decode_failure_amended.1 fetchPricesUndecodable [] "AAPL" "2020-01-01"
    "2020-02-01" (by decide) (by decide) (by decide)

theorem listCharLe_refl : ∀ l : List Char, listCharLe l l = true := by
  intro l
  induction l with
  | nil => rfl
  | cons a as ih => simp [listCharLe, Nat.lt_irrefl, ih]

theorem pyStrLt_irrefl (a : String) : pyStrLt a a = false := by
  simp [pyStrLt, pyStrLe, listCharLe_refl]

theorem isEmpty_false_of_ne_nil {α : Type} {l : List α} (h : l ≠ []) :
    l.isEmpty = false := by
  cases l with
  | nil => exact absurd rfl h
  | cons a as => rfl

theorem trades_serves_flatten_ne_nil
    {fetch : String → HttpResponse (List InsiderTrade)}
    {ticker sd : String} {limit : Nat} {cursor : String}
    {pages : List (List InsiderTrade)} (hlim : 0 < limit)
    (h : TradesServes fetch ticker sd limit cursor pages) :
    pages.flatten ≠ [] := by
  induction h with
  | last cursor page hdec hne hlen =>
    simpa using hne
  | cons cursor page pages hdec hlen hgt hrec ih =>
    have hne : page ≠ [] := by
      intro h0
      rw [h0] at hlen
      simp at hlen
      omega
    simp only [List.flatten_cons]
    intro h0
    rcases List.append_eq_nil.mp h0 with ⟨h1, -⟩
    exact hne h1

/-- Running the pagination loop against a synthetic provider consumes the
pages one by one: with enough fuel it terminates with the concatenation of
all pages appended to the accumulator, one request per page. -/
theorem insider_trades_loop_serves
    {fetch : String → HttpResponse (List InsiderTrade)}
    {ticker sd : String} {limit : Nat} (hlim : 0 < limit) (hsd : sd ≠ "")
    {cursor : String} {pages : List (List InsiderTrade)}
    (hserves : TradesServes fetch ticker sd limit cursor pages) :
    ∀ acc n fuel, pages.length ≤ fuel →
      insider_trades_loop fetch ticker (some sd) limit fuel cursor acc n =
        some (.ok (acc ++ pages.flatten), n + pages.length) := by
  have hst : strTruthy (some sd) = true := by simp [strTruthy, hsd]
  induction hserves with
  | last cursor page hdec hne hlen =>
    intro acc n fuel hfuel
    cases fuel with
    | zero => simp at hfuel
    | succ f =>
      unfold insider_trades_loop
      dsimp only
      rw [hdec]
      dsimp only
      rw [if_neg (show ¬ (page.isEmpty = true) by
        simp [isEmpty_false_of_ne_nil hne])]
      rw [if_pos (show (!strTruthy (some sd) || decide (page.length < limit)) = true by
        simp [hst, hlen])]
      simp

  | cons cursor page pages hdec hlen hgt hrec ih =>
    intro acc n fuel hfuel
    cases fuel with
    | zero => simp at hfuel
    | succ f =>
      have hne : page ≠ [] := by
        intro h0
        rw [h0] at hlen
        simp at hlen
        omega
      unfold insider_trades_loop
      dsimp only
      rw [hdec]
      dsimp only
      rw [if_neg (show ¬ (page.isEmpty = true) by
        simp [isEmpty_false_of_ne_nil hne])]
      rw [if_neg (show ¬ ((!strTruthy (some sd) || decide (page.length < limit)) = true) by
        simp [hst]
        omega)]
      rw [if_neg (show ¬ (pyStrLe (dateOnly (min_filing_date page)) ((some sd).getD "") = true) by
        simp [hgt])]
      rw [ih (acc ++ page) (n + 1) f (show pages.length ≤ f by
        simp only [List.length_cons] at hfuel
        omega)]
      simp only [List.flatten_cons, ← List.append_assoc, Option.some.injEq,
        Prod.mk.injEq, List.length_cons, true_and]
      omega

theorem news_serves_flatten_ne_nil
    {fetch : String → HttpResponse (List CompanyNews)}
    {ticker sd : String} {limit : Nat} {cursor : String}
    {pages : List (List CompanyNews)} (hlim : 0 < limit)
    (h : NewsServes fetch ticker sd limit cursor pages) :
    pages.flatten ≠ [] := by
  induction h with
  | last cursor page hdec hne hlen =>
    simpa using hne
  | cons cursor page pages hdec hlen hgt hrec ih =>
    have hne : page ≠ [] := by
      intro h0
      rw [h0] at hlen
      simp at hlen
      omega
    simp only [List.flatten_cons]
    intro h0
    rcases List.append_eq_nil.mp h0 with ⟨h1, -⟩
    exact hne h1

theorem company_news_loop_serves
    {fetch : String → HttpResponse (List CompanyNews)}
    {ticker sd : String} {limit : Nat} (hlim : 0 < limit) (hsd : sd ≠ "")
    {cursor : String} {pages : List (List CompanyNews)}
    (hserves : NewsServes fetch ticker sd limit cursor pages) :
    ∀ acc n fuel, pages.length ≤ fuel →
      company_news_loop fetch ticker (some sd) limit fuel cursor acc n =
        some (.ok (acc ++ pages.flatten), n + pages.length) := by
  have hst : strTruthy (some sd) = true := by simp [strTruthy, hsd]
  induction hserves with
  | last cursor page hdec hne hlen =>
    intro acc n fuel hfuel
    cases fuel with
    | zero => simp at hfuel
    | succ f =>
      unfold company_news_loop
      dsimp only
      rw [hdec]
      dsimp only
      rw [if_neg (show ¬ (page.isEmpty = true) by
        simp [isEmpty_false_of_ne_nil hne])]
      rw [if_pos (show (!strTruthy (some sd) || decide (page.length < limit)) = true by
        simp [hst, hlen])]
      simp
  | cons cursor page pages hdec hlen hgt hrec ih =>
    intro acc n fuel hfuel
    cases fuel with
    | zero => simp at hfuel
    | succ f =>
      have hne : page ≠ [] := by
        intro h0
        rw [h0] at hlen
        simp at hlen
        omega
      unfold company_news_loop
      dsimp only
      rw [hdec]
      dsimp only
      rw [if_neg (show ¬ (page.isEmpty = true) by
        simp [isEmpty_false_of_ne_nil hne])]
      rw [if_neg (show ¬ ((!strTruthy (some sd) || decide (page.length < limit)) = true) by
        simp [hst]
        omega)]
      rw [if_neg (show ¬ (pyStrLe (dateOnly (min_news_date page)) ((some sd).getD "") = true) by
        simp [hgt])]
      rw [ih (acc ++ page) (n + 1) f (show pages.length ≤ f by
        simp only [List.length_cons] at hfuel
        omega)]
      simp only [List.flatten_cons, ← List.append_assoc, Option.some.injEq,
        Prod.mk.injEq, List.length_cons, true_and]
      omega

/-- C3: against a synthetic provider serving pages with strictly decreasing
dates, each full page followed by a final short page, the paginated
operations terminate, issue one request per page, store and return the
concatenation (union) of all pages, and the merged result has no duplicate
natural keys (the dates are pairwise distinct). -/
theorem C3_pagination_terminates_union_nodup :
    (∀ fetch cache (ticker end_date sd : String) (limit : Nat)
       (pages : List (List InsiderTrade)) (fuel : Nat),
      0 < limit → sd ≠ "" →
      TradesServes fetch ticker sd limit end_date pages →
      cache.lookup (insider_trades_cache_key ticker (some sd) end_date limit) = none →
      pages.length ≤ fuel →
      (pages.flatten.map (fun t => t.filing_date)).Pairwise
        (fun a b => pyStrLt b a = true) →
      get_insider_trades fetch cache ticker end_date (some sd) limit fuel =
        some ⟨.ok pages.flatten,
          cache.insertKV
            (insider_trades_cache_key ticker (some sd) end_date limit)
            (.insiderTrades pages.flatten),
          pages.length⟩
      ∧ (pages.flatten.map (fun t => t.filing_date)).Nodup)
    ∧ (∀ fetch cache (ticker end_date sd : String) (limit : Nat)
       (pages : List (List CompanyNews)) (fuel : Nat),
      0 < limit → sd ≠ "" →
      NewsServes fetch ticker sd limit end_date pages →
      cache.lookup (company_news_cache_key ticker (some sd) end_date limit) = none →
      pages.length ≤ fuel →
      (pages.flatten.map (fun t => t.date)).Pairwise
        (fun a b => pyStrLt b a = true) →
      get_company_news fetch cache ticker end_date (some sd) limit fuel =
        some ⟨.ok pages.flatten,
          cache.insertKV
            (company_news_cache_key ticker (some sd) end_date limit)
            (.companyNews pages.flatten),
          pages.length⟩
      ∧ (pages.flatten.map (fun t => t.date)).Nodup) := by
  constructor
  · intro fetch cache ticker end_date sd limit pages fuel hlim hsd hserves hmiss
      hfuel hdc
    constructor
    · unfold get_insider_trades
      dsimp only
      rw [hmiss]
      dsimp only
      rw [insider_trades_loop_serves hlim hsd hserves [] 0 fuel hfuel]
      dsimp only
      simp only [List.nil_append, Nat.zero_add]
      rw [if_neg (show ¬ (pages.flatten.isEmpty = true) by
        simp [isEmpty_false_of_ne_nil (trades_serves_flatten_ne_nil hlim hserves)])]
    · refine List.Pairwise.imp ?_ hdc
      intro a b h heq
      rw [heq] at h
      rw [pyStrLt_irrefl] at h
      simp at h
  · intro fetch cache ticker end_date sd limit pages fuel hlim hsd hserves hmiss
      hfuel hdc
    constructor
    · unfold get_company_news
      dsimp only
      rw [hmiss]
      dsimp only
      rw [company_news_loop_serves hlim hsd hserves [] 0 fuel hfuel]
      dsimp only
      simp only [List.nil_append, Nat.zero_add]
      rw [if_neg (show ¬ (pages.flatten.isEmpty = true) by
        simp [isEmpty_false_of_ne_nil (news_serves_flatten_ne_nil hlim hserves)])]
    · refine List.Pairwise.imp ?_ hdc
      intro a b h heq
      rw [heq] at h
      rw [pyStrLt_irrefl] at h
      simp at h

/-- C3 witness: the pagination property at a concrete two-page synthetic
provider: two requests, the union of both pages cached and returned,
duplicate-free. -/
theorem C3_pagination_witness :
    get_insider_trades c3fetch [] "T" "2020-03-01" (some "2020-01-01") 2 2 =
      some ⟨.ok [c3t1, c3t2, c3t3],
        [(insider_trades_cache_key "T" (some "2020-01-01") "2020-03-01" 2,
          .insiderTrades [c3t1, c3t2, c3t3])], 2⟩
    ∧ ([c3t1, c3t2, c3t3].map (fun t => t.filing_date)).Nodup := by
  have hserves : TradesServes c3fetch "T" "2020-01-01" 2 "2020-03-01"
      [[c3t1, c3t2], [c3t3]] := by
    refine TradesServes.cons _ _ _ (by decide) (by decide) (by decide) ?_
    have hc : dateOnly (min_filing_date [c3t1, c3t2]) = "2020-02-15" := by decide
    rw [hc]
    exact TradesServes.last _ _ (by decide) (by decide) (by decide)
  exact C3_pagination_terminates_union_nodup.1 c3fetch [] "T" "2020-03-01"
    "2020-01-01" 2 [[c3t1, c3t2], [c3t3]] 2 (by decide) (by decide) hserves
    (by decide) (by decide) (by decide)

/-- C8: for the paginated operations with `start_date = 2020-01-01` and
`end_date = 2020-03-01`, a full first page whose oldest record date is
exactly `2020-01-01` ends the walk on that page (`cursor <= start_date`)
after exactly one request; and with no `start_date` the loop always stops
after the first request, whatever the provider returns. -/
theorem C8_pagination_boundary :
    (∀ fetch cache (ticker : String) (limit : Nat)
       (page : List InsiderTrade) (fuel : Nat),
      0 < fuel →
      cache.lookup (insider_trades_cache_key ticker (some "2020-01-01")
        "2020-03-01" limit) = none →
      (fetch (insider_trades_url ticker "2020-03-01" (some "2020-01-01")
        limit)).decoded = some page →
      page ≠ [] → page.length = limit →
      dateOnly (min_filing_date page) = "2020-01-01" →
      get_insider_trades fetch cache ticker "2020-03-01" (some "2020-01-01")
        limit fuel =
        some ⟨.ok page,
          cache.insertKV (insider_trades_cache_key ticker (some "2020-01-01")
            "2020-03-01" limit) (.insiderTrades page), 1⟩)
    ∧ (∀ fetch cache (ticker end_date : String) (limit fuel : Nat),
      0 < fuel →
      cache.lookup (insider_trades_cache_key ticker none end_date limit) = none →
      ∃ res, get_insider_trades fetch cache ticker end_date none limit fuel =
        some res ∧ res.fetches = 1)
    ∧ (∀ fetch cache (ticker : String) (limit : Nat)
       (page : List CompanyNews) (fuel : Nat),
      0 < fuel →
      cache.lookup (company_news_cache_key ticker (some "2020-01-01")
        "2020-03-01" limit) = none →
      (fetch (company_news_url ticker "2020-03-01" (some "2020-01-01")
        limit)).decoded = some page →
      page ≠ [] → page.length = limit →
      dateOnly (min_news_date page) = "2020-01-01" →
      get_company_news fetch cache ticker "2020-03-01" (some "2020-01-01")
        limit fuel =
        some ⟨.ok page,
          cache.insertKV (company_news_cache_key ticker (some "2020-01-01")
            "2020-03-01" limit) (.companyNews page), 1⟩)
    ∧ (∀ fetch cache (ticker end_date : String) (limit fuel : Nat),
      0 < fuel →
      cache.lookup (company_news_cache_key ticker none end_date limit) = none →
      ∃ res, get_company_news fetch cache ticker end_date none limit fuel =
        some res ∧ res.fetches = 1) := by
  refine ⟨?_, ?_, ?_, ?_⟩
  · intro fetch cache ticker limit page fuel hfuel hmiss hdec hne hlen hcursor
    cases fuel with
    | zero => exact absurd hfuel (by omega)
    | succ f =>
      unfold get_insider_trades
      dsimp only
      rw [hmiss]
      dsimp only
      unfold insider_trades_loop
      dsimp only
      rw [hdec]
      dsimp only
      rw [if_neg (show ¬ (page.isEmpty = true) by
        simp [isEmpty_false_of_ne_nil hne])]
      rw [if_neg (show ¬ ((!strTruthy (some "2020-01-01") ||
          decide (page.length < limit)) = true) by
        simp [strTruthy]
        omega)]
      rw [hcursor]
      rw [if_pos (show pyStrLe "2020-01-01" ((some "2020-01-01").getD "") = true
        by decide)]
      dsimp only
      simp only [List.nil_append, Nat.zero_add]
      rw [if_neg (show ¬ (page.isEmpty = true) by
        simp [isEmpty_false_of_ne_nil hne])]
  · intro fetch cache ticker end_date limit fuel hfuel hmiss
    cases fuel with
    | zero => exact absurd hfuel (by omega)
    | succ f =>
      unfold get_insider_trades
      dsimp only
      rw [hmiss]
      dsimp only
      unfold insider_trades_loop
      dsimp only
      cases hdec : (fetch (insider_trades_url ticker end_date none limit)).decoded with
      | none =>
        exact ⟨_, rfl, rfl⟩
      | some page =>
        cases page with
        | nil => exact ⟨_, rfl, rfl⟩
        | cons p ps => exact ⟨_, rfl, rfl⟩
  · intro fetch cache ticker limit page fuel hfuel hmiss hdec hne hlen hcursor
    cases fuel with
    | zero => exact absurd hfuel (by omega)
    | succ f =>
      unfold get_company_news
      dsimp only
      rw [hmiss]
      dsimp only
      unfold company_news_loop
      dsimp only
      rw [hdec]
      dsimp only
      rw [if_neg (show ¬ (page.isEmpty = true) by
        simp [isEmpty_false_of_ne_nil hne])]
      rw [if_neg (show ¬ ((!strTruthy (some "2020-01-01") ||
          decide (page.length < limit)) = true) by
        simp [strTruthy]
        omega)]
      rw [hcursor]
      rw [if_pos (show pyStrLe "2020-01-01" ((some "2020-01-01").getD "") = true
        by decide)]
      dsimp only
      simp only [List.nil_append, Nat.zero_add]
      rw [if_neg (show ¬ (page.isEmpty = true) by
        simp [isEmpty_false_of_ne_nil hne])]
  · intro fetch cache ticker end_date limit fuel hfuel hmiss
    cases fuel with
    | zero => exact absurd hfuel (by omega)
    | succ f =>
      unfold get_company_news
      dsimp only
      rw [hmiss]
      dsimp only
      unfold company_news_loop
      dsimp only
      cases hdec : (fetch (company_news_url ticker end_date none limit)).decoded with
      | none =>
        exact ⟨_, rfl, rfl⟩
      | some page =>
        cases page with
        | nil => exact ⟨_, rfl, rfl⟩
        | cons p ps => exact ⟨_, rfl, rfl⟩

/-- C8 witness: at a concrete provider, the boundary page ends the walk after
exactly one request. -/
theorem C8_pagination_boundary_witness :
    get_insider_trades c8fetch [] "T" "2020-03-01" (some "2020-01-01") 2 3 =
      some ⟨.ok [c8t1, c8t2],
        [(insider_trades_cache_key "T" (some "2020-01-01") "2020-03-01" 2,
          .insiderTrades [c8t1, c8t2])], 1⟩ :=
  C8_pagination_boundary.1 c8fetch [] "T" 2 [c8t1, c8t2] 3 (by decide)
    (by decide) (by decide) (by decide) (by decide) (by decide)

theorem listCharLe_cons_iff {x y : Char} {xs ys : List Char} :
    listCharLe (x :: xs) (y :: ys) = true ↔
      (x.toNat < y.toNat ∨ (x.toNat = y.toNat ∧ listCharLe xs ys = true)) := by
  simp only [listCharLe]
  split_ifs with h1 h2
  · exact iff_of_true rfl (Or.inl h1)
  · exact iff_of_false (by simp) (by rintro (h | ⟨h, -⟩) <;> omega)
  · have hxy : x.toNat = y.toNat := by omega
    simp [hxy]

theorem listCharLe_trans :
    ∀ a b c, listCharLe a b = true → listCharLe b c = true →
      listCharLe a c = true := by
  intro a
  induction a with
  | nil => intro b c _ _; rfl
  | cons x xs ih =>
    intro b c hab hbc
    cases b with
    | nil => simp [listCharLe] at hab
    | cons y ys =>
      cases c with
      | nil => simp [listCharLe] at hbc
      | cons z zs =>
        rw [listCharLe_cons_iff] at hab hbc ⊢
        rcases hab with h | ⟨h, hab2⟩
        · rcases hbc with h2 | ⟨h2, -⟩
          · exact Or.inl (by omega)
          · exact Or.inl (by omega)
        · rcases hbc with h2 | ⟨h2, hbc2⟩
          · exact Or.inl (by omega)
          · exact Or.inr ⟨by omega, ih ys zs hab2 hbc2⟩

theorem listCharLe_total :
    ∀ a b, listCharLe a b = true ∨ listCharLe b a = true := by
  intro a
  induction a with
  | nil => intro b; exact Or.inl rfl
  | cons x xs ih =>
    intro b
    cases b with
    | nil => exact Or.inr rfl
    | cons y ys =>
      rw [listCharLe_cons_iff, listCharLe_cons_iff]
      rcases Nat.lt_trichotomy x.toNat y.toNat with h | h | h
      · exact Or.inl (Or.inl h)
      · rcases ih ys with h2 | h2
        · exact Or.inl (Or.inr ⟨h, h2⟩)
        · exact Or.inr (Or.inr ⟨h.symm, h2⟩)
      · exact Or.inr (Or.inl h)

theorem pyStrLe_trans (a b c : String) (hab : pyStrLe a b = true)
    (hbc : pyStrLe b c = true) : pyStrLe a c = true :=
  listCharLe_trans a.data b.data c.data hab hbc

theorem pyStrLe_total (a b : String) :
    pyStrLe a b = true ∨ pyStrLe b a = true :=
  listCharLe_total a.data b.data

/-- Rows paired with their derived index value determine the index column. -/
theorem map_snd_eq_of_mem {s : List (Price × String)}
    (h : ∀ p ∈ s, p.2 = to_datetime p.1.time) :
    s.map Prod.snd = (s.map Prod.fst).map (fun r => to_datetime r.time) := by
  induction s with
  | nil => rfl
  | cons p ps ih =>
    simp only [List.map_cons]
    rw [h p (List.mem_cons_self p ps),
      ih (fun q hq => h q (List.mem_cons_of_mem p hq))]

/-- C9 counterexample: converting the empty record list returns no frame at
all: `pd.DataFrame([])` has no columns, so line 347's `df["time"]` raises
`KeyError`; the source list is nevertheless untouched, and `get_price_data`
propagates the exception whenever `get_prices` returned an empty list (here
through a provider 404). -/
theorem C9_counterexample_empty_frame :
    prices_to_df ([] : List Price) = .error .keyError
    ∧ (prices_to_df_effect ([] : List Price)).1 = []
    ∧ get_price_data c9fetch404 [] "AAPL" "2020-01-01" "2020-02-01" =
        (.error .keyError, [], 1) := by
  refine ⟨rfl, rfl, by decide⟩

/-- C9 (amended): the frame conversion never mutates the source record list —
`prices_to_df_effect` returns the input unchanged whether the conversion
succeeds or raises — and whenever a frame is returned (exactly when the
record list is non-empty) it is a separate derived projection: its rows are a
permutation of dumped copies of the records, its index is the `Date` value
derived from each row's `time` field, and the index is sorted ascending. On
the empty list the conversion raises `KeyError` instead of returning a frame,
and `get_price_data` passes the fetched record list through the conversion
without altering cache or fetch count, propagating any exception. -/
theorem C9_frame_conversion_amended :
    (∀ prices : List Price, (prices_to_df_effect prices).1 = prices)
    ∧ prices_to_df ([] : List Price) = .error .keyError
    ∧ (∀ (prices : List Price) (df : DataFrame), prices_to_df prices = .ok df →
        df.rows.Perm (prices.map Price.model_dump)
        ∧ df.index = df.rows.map (fun r => to_datetime r.time)
        ∧ df.index.Pairwise (fun a b => pyStrLe a b = true))
    ∧ (∀ fetch cache ticker start_date end_date,
        get_price_data fetch cache ticker start_date end_date =
          (match (get_prices fetch cache ticker start_date end_date).outcome with
           | .ok ps => prices_to_df ps
           | .error e => .error e,
           (get_prices fetch cache ticker start_date end_date).cache,
           (get_prices fetch cache ticker start_date end_date).fetches)) := by
  refine ⟨fun prices => rfl, rfl, ?_, ?_⟩
  · intro prices df h
    have hperm := List.mergeSort_perm
      ((prices.map Price.model_dump).map (fun r => (r, to_datetime r.time)))
      (fun a b => pyStrLe a.2 b.2)
    have hfst : ((prices.map Price.model_dump).map
        (fun r => (r, to_datetime r.time))).map Prod.fst =
        prices.map Price.model_dump := by
      simp [List.map_map]
    have hmem : ∀ p ∈ ((prices.map Price.model_dump).map
        (fun r => (r, to_datetime r.time))).mergeSort
          (fun a b => pyStrLe a.2 b.2), p.2 = to_datetime p.1.time := by
      intro p hp
      have hin := hperm.mem_iff.mp hp
      rcases List.mem_map.mp hin with ⟨r, -, rfl⟩
      rfl
    unfold prices_to_df at h
    split at h
    · simp at h
    · dsimp only at h
      obtain rfl := Except.ok.inj h
      refine ⟨?_, ?_, ?_⟩
      · dsimp only
        have h1 := hperm.map Prod.fst
        rw [hfst] at h1
        exact h1
      · dsimp only
        exact map_snd_eq_of_mem hmem
      · dsimp only
        have hsorted := List.sorted_mergeSort
          (fun a b c : Price × String =>
            fun hab hbc => pyStrLe_trans a.2 b.2 c.2 hab hbc)
          (fun a b => by rcases pyStrLe_total a.2 b.2 with h | h <;> simp [h])
          ((prices.map Price.model_dump).map (fun r => (r, to_datetime r.time)))
        rw [List.pairwise_map]
        exact hsorted
  · intro fetch cache ticker start_date end_date
    cases h : (get_prices fetch cache ticker start_date end_date).outcome with
    | ok ps => simp [get_price_data, h, prices_to_df_effect]
    | error e => simp [get_price_data, h]

/-- C9 witness: at a concrete two-record list (already in time order), the
conversion returns a frame, leaves the source list unchanged, and the frame's
rows, index, and sortedness are as the amended claim states. -/
theorem C9_frame_conversion_witness :
    (prices_to_df_effect [c9p1, c9p2]).1 = [c9p1, c9p2]
    ∧ ([c9p1, c9p2].Perm ([c9p1, c9p2].map Price.model_dump)
      ∧ (["2020-01-02", "2020-01-03"] : List String) =
          [c9p1, c9p2].map (fun r => to_datetime r.time)
      ∧ (["2020-01-02", "2020-01-03"] : List String).Pairwise
          (fun a b => pyStrLe a b = true)) := by
  have hok : prices_to_df [c9p1, c9p2] =
      .ok ⟨[c9p1, c9p2], ["2020-01-02", "2020-01-03"]⟩ := by
    show Except.ok
        (DataFrame.mk
          ((([(c9p1, "2020-01-02"), (c9p2, "2020-01-03")]).mergeSort
            (fun a b => pyStrLe a.2 b.2)).map Prod.fst)
          ((([(c9p1, "2020-01-02"), (c9p2, "2020-01-03")]).mergeSort
            (fun a b => pyStrLe a.2 b.2)).map Prod.snd)) = _
    rw [List.mergeSort_of_sorted (by decide)]
    rfl
  exact ⟨C9_frame_conversion_amended.1 [c9p1, c9p2],
    C9_frame_conversion_amended.2.2.1 [c9p1, c9p2]
      ⟨[c9p1, c9p2], ["2020-01-02", "2020-01-03"]⟩ hok⟩
